import Mathlib

set_option linter.unusedSectionVars false

/-!
Shallow embedding of `src/concurrent_queue.hpp` (class `pt::Concurrent_queue<T>`).

The internal `std::deque<T> deque_` is modelled as a `List T` whose head is the
front of the deque.  The element type `T` carries `[Inhabited T]`, mirroring the
default-constructibility the source requires for `T value;` in both `pop`
overloads.

The condition-variable waits are modelled by explicit wake traces.
`cv_.wait(cv_lock, pred)` parks the thread and, on every resumption, re-checks
the predicate `deque_.size()`; the queue contents observed at successive
resumptions form a list `wakes : List (List T)` supplied by the environment
(concurrent pushers and spurious wakeups), and the wait completes at the first
resumption whose state satisfies the predicate.  `cv_.wait_for` additionally
takes the timeout duration `t` (the signed millisecond count of
`std::chrono::milliseconds`) and a state `qT` observed at the deadline
resumption; `wakes` lists the states at resumptions strictly before the
deadline.  A run with no concurrent activity instantiates the traces with the
entry state (nothing changes while the caller is parked).
-/

namespace pt

variable {T : Type} [Inhabited T]

/-- `push(item)`: under the lock, `deque_.push_back(item)` appends the element
at the back; `cv_.notify_one()` has no effect on the queue contents. -/
def push (q : List T) (item : T) : List T := q ++ [item]

/-- The body shared by both `pop` overloads once the wait has completed:
`value = deque_.front(); deque_.pop_front();` — read the front element and
remove it. -/
def popCore (q : List T) : T × List T := (q.headI, q.tail)

/-- `cv_.wait(cv_lock, [this] { return deque_.size(); })`: if the predicate
holds on entry the wait returns at once; otherwise the thread parks and the
wait completes at the first resumption whose observed state is non-empty.
`none` means no resumption ever satisfied the predicate: the thread is still
parked. -/
def cvWait (q0 : List T) (wakes : List (List T)) : Option (List T) :=
  if q0.isEmpty then wakes.find? (fun s => !s.isEmpty) else some q0

/-- `T pop()`: wait until the deque is non-empty, then remove and return the
front element.  The result is the returned value paired with the deque left
behind; `none` means the call has not returned (the caller is still blocked). -/
def pop (q0 : List T) (wakes : List (List T)) : Option (T × List T) :=
  (cvWait q0 wakes).map popCore

/-- `cv_.wait_for(cv_lock, time, [this] { return deque_.size(); })`: the
predicate is checked first; if it already holds the wait returns `true` at
once.  With a non-positive duration the deadline has already passed, so the
wait returns the predicate's value immediately (no resumption is consumed and
the state cannot have changed).  Otherwise the thread parks; it completes with
`true` at the first pre-deadline resumption whose state is non-empty, and at
the deadline it returns the predicate evaluated on the state `qT` observed
there.  The result pairs the predicate's value with the state at return. -/
def waitFor (t : Int) (q0 : List T) (wakes : List (List T)) (qT : List T) :
    Bool × List T :=
  if !q0.isEmpty then (true, q0)
  else if t ≤ 0 then (false, q0)
  else
    match wakes.find? (fun s => !s.isEmpty) with
    | some s => (true, s)
    | none => (!qT.isEmpty, qT)

/-- `std::optional<T> pop(const std::chrono::milliseconds& time)`: if
`wait_for` reports failure the call returns the empty optional `{}` and leaves
the deque as it was at that moment; otherwise it removes and returns the front
element of the state the wait completed on. -/
def timedPop (t : Int) (q0 : List T) (wakes : List (List T)) (qT : List T) :
    Option T × List T :=
  match waitFor t q0 wakes qT with
  | (false, s) => (none, s)
  | (true, s) => (some (popCore s).1, (popCore s).2)

/-- `clear()`: under the lock, `deque_.clear()` discards every element. -/
def clear (_q : List T) : List T := []

/-- `pop(time)` in a run with no concurrent activity: nothing changes while
the caller is parked, so every observed state equals the entry state. -/
def timedPopSeq (t : Int) (q : List T) : Option T × List T :=
  timedPop t q [q] q

/-- A sequence of `push` calls issued back to back. -/
def pushAll (q : List T) (ps : List T) : List T := ps.foldl push q

/-- `n` back-to-back successful pops: each one requires the deque to be
non-empty at its turn (a blocking `pop` with no concurrent pusher never
returns on an empty deque).  Returns the popped values in order together with
the remaining deque, or `none` if some pop found the deque empty. -/
def popN : Nat → List T → Option (List T × List T)
  | 0, q => some ([], q)
  | n + 1, q =>
    if q.isEmpty then none
    else (popN n (popCore q).2).map (fun r => ((popCore q).1 :: r.1, r.2))

/-- One step of a single-threaded client execution. -/
inductive Op (T : Type) where
  | push (x : T)
  | pop

/-- The values pushed by an execution, in program order. -/
def pushedVals : List (Op T) → List T
  | [] => []
  | Op.push x :: rest => x :: pushedVals rest
  | Op.pop :: rest => pushedVals rest

/-- Run an execution against the queue: a `push` op appends its value, a `pop`
op succeeds only on a non-empty deque (otherwise the run is stuck: `none`).
Returns the popped values in order and the final deque. -/
def run : List (Op T) → List T → Option (List T × List T)
  | [], q => some ([], q)
  | Op.push x :: rest, q => run rest (push q x)
  | Op.pop :: rest, q =>
    if q.isEmpty then none
    else (run rest (popCore q).2).map (fun r => ((popCore q).1 :: r.1, r.2))

lemma popCore_cons (q : List T) (h : q.isEmpty = false) :
    (popCore q).1 :: (popCore q).2 = q := by
  cases q with
  | nil => simp at h
  | cons x xs => simp [popCore]

lemma pushAll_eq_append (q ps : List T) : pushAll q ps = q ++ ps := by
  induction ps generalizing q with
  | nil => simp [pushAll]
  | cons x xs ih =>
    simp [pushAll, push] at ih ⊢
    rw [ih]
    simp

lemma popN_self (ps : List T) : popN ps.length ps = some (ps, []) := by
  induction ps with
  | nil => simp [popN]
  | cons x xs ih =>
    simp [popN, popCore, ih]

/-- C1: FIFO order — pushing `p1, ..., pn` onto an initially empty queue and
then performing `n` successful pops returns exactly `p1, ..., pn` in that
order, leaving the queue empty. -/
theorem fifo_order (ps : List T) :
    popN ps.length (pushAll [] ps) = some (ps, []) := by
  rw [pushAll_eq_append]
  simpa using popN_self ps

lemma run_multiset (ops : List (Op T)) :
    ∀ q out qf : List T, run ops q = some (out, qf) →
      (↑q + ↑(pushedVals ops) : Multiset T) = ↑out + ↑qf := by
  induction ops with
  | nil =>
    intro q out qf h
    simp only [run, Option.some_inj, Prod.mk.injEq] at h
    obtain ⟨h1, h2⟩ := h
    subst h1
    subst h2
    simp [pushedVals, add_comm]
  | cons op rest ih =>
    intro q out qf h
    cases op with
    | push x =>
      have h2 := ih (push q x) out qf (by simpa [run] using h)
      rw [← h2]
      show (↑q + ↑(x :: pushedVals rest) : Multiset T) =
        ↑(push q x) + ↑(pushedVals rest)
      rw [push, ← List.singleton_append, ← Multiset.coe_add, ← Multiset.coe_add]
      exact (add_assoc _ _ _).symm
    | pop =>
      cases hq : q.isEmpty with
      | true => simp [run, hq] at h
      | false =>
        simp only [run, hq, Bool.false_eq_true, if_false,
          Option.map_eq_some'] at h
        obtain ⟨⟨out2, qf2⟩, hrun, heq⟩ := h
        injection heq with ho hf
        subst ho
        subst hf
        have h2 := ih (popCore q).2 out2 qf2 hrun
        have hc : (popCore q).1 :: (popCore q).2 = q := popCore_cons q hq
        show (↑q + ↑(pushedVals rest) : Multiset T) =
          ↑((popCore q).1 :: out2) + ↑qf2
        calc (↑q + ↑(pushedVals rest) : Multiset T)
            = ↑((popCore q).1 :: (popCore q).2) + ↑(pushedVals rest) := by
              rw [hc]
          _ = (popCore q).1 ::ₘ (↑(popCore q).2 + ↑(pushedVals rest)) := by
              rw [← Multiset.cons_coe, Multiset.cons_add]
          _ = (popCore q).1 ::ₘ (↑out2 + ↑qf2) := by rw [h2]
          _ = ↑((popCore q).1 :: out2) + ↑qf2 := by
              rw [← Multiset.cons_add, Multiset.cons_coe]

/-- C2: no loss, no duplication — any single-client execution whose `n` pops
all succeed and which drains the queue from empty back to empty returns, as a
multiset, exactly the values it pushed. -/
theorem no_loss_no_duplication (ops : List (Op T)) (out : List T)
    (h : run ops [] = some (out, [])) :
    (↑out : Multiset T) = ↑(pushedVals ops) := by
  have h2 := run_multiset ops [] out [] h
  simpa using h2.symm

/-- witness for no_loss_no_duplication -/
theorem no_loss_no_duplication_witness :
    (↑([1, 2] : List Nat) : Multiset Nat) =
      ↑(pushedVals [Op.push 1, Op.push 2, Op.pop, Op.pop]) :=
  no_loss_no_duplication [Op.push 1, Op.push 2, Op.pop, Op.pop] [1, 2] rfl

/-- C3: the timed pop yields exactly one of the two outcomes per call: either
it returns an item (`some v`) or it reports the empty result (`none`), never
both and nothing else. -/
theorem timed_pop_dichotomy (t : Int) (q0 : List T) (wakes : List (List T))
    (qT : List T) :
    ((∃ v, (timedPop t q0 wakes qT).1 = some v) ∨
      (timedPop t q0 wakes qT).1 = none) ∧
    ¬ ((∃ v, (timedPop t q0 wakes qT).1 = some v) ∧
      (timedPop t q0 wakes qT).1 = none) := by
  cases h : (timedPop t q0 wakes qT).1 with
  | none => simp [h]
  | some v => simp [h]

/-- C4: a timed pop with a zero duration on an empty queue returns the empty
result at once — the result does not depend on any wake event, so no waiting
takes place. -/
theorem zero_timeout_immediate (wakes : List (List T)) (qT : List T) :
    timedPop 0 ([] : List T) wakes qT = (none, []) := by
  simp [timedPop, waitFor]

/-- C5: a timed pop on a non-empty queue removes and returns the front item
immediately, for every duration (the wake trace is never consulted). -/
theorem timed_pop_nonempty_immediate (t : Int) (q : List T)
    (wakes : List (List T)) (qT : List T) (h : q.isEmpty = false) :
    timedPop t q wakes qT = (some q.headI, q.tail) := by
  simp [timedPop, waitFor, popCore, h]

/-- witness for timed_pop_nonempty_immediate -/
theorem timed_pop_nonempty_immediate_witness :
    timedPop (-3) ([4, 5] : List Nat) [[9], []] [7] = (some 4, [5]) :=
  timed_pop_nonempty_immediate (-3) [4, 5] [[9], []] [7] rfl

/-- C6: `clear` leaves the queue empty and never fails (it is total); a timed
pop after `clear`, with no intervening push, returns the empty result. -/
theorem clear_empties (q : List T) (t : Int) :
    clear q = [] ∧ timedPopSeq t (clear q) = (none, []) := by
  refine ⟨rfl, ?_⟩
  by_cases ht : t ≤ 0 <;> simp [timedPopSeq, timedPop, waitFor, clear, ht]

/-- C7 counterexample: a call with a negative duration is accepted by the
interface (the millisecond count of `std::chrono::milliseconds` is signed and
the code never validates it) and completes normally, on an empty queue and on
a non-empty one. -/
theorem negative_timeout_accepted :
    timedPop (-5) ([] : List Nat) [] [] = (none, []) ∧
    timedPop (-5) ([7] : List Nat) [] [] = (some 7, []) := by
  constructor <;> rfl

/-- C7 amended: negative durations are accepted and behave exactly like a zero
duration — an immediate empty-check with no waiting. -/
theorem nonpositive_timeout_like_zero (t : Int) (q0 : List T)
    (wakes : List (List T)) (qT : List T) (h : t ≤ 0) :
    timedPop t q0 wakes qT = timedPop 0 q0 wakes qT := by
  simp [timedPop, waitFor, h]

/-- witness for nonpositive_timeout_like_zero -/
theorem nonpositive_timeout_like_zero_witness :
    timedPop (-2) ([3] : List Nat) [] [] = timedPop 0 ([3] : List Nat) [] [] :=
  nonpositive_timeout_like_zero (-2) [3] [] [] (by norm_num)

/-- C8: the unbounded pop blocks until an item is available: if the queue is
empty on entry and every wakeup finds it still empty, the call does not return
(spurious wakeups never produce an item); and whenever it does return, the
queue was non-empty at the resumption that satisfied the re-checked predicate,
and the returned value is that state's front element. -/
theorem pop_blocks_until_nonempty (q : List T) (wakes : List (List T)) :
    ((q = [] ∧ ∀ s ∈ wakes, s = []) → pop q wakes = none) ∧
    (∀ v q2, pop q wakes = some (v, q2) →
      ∃ s, s ≠ [] ∧ (s = q ∨ s ∈ wakes) ∧ v = s.headI ∧ q2 = s.tail) := by
  constructor
  · rintro ⟨hq, hall⟩
    subst hq
    simp only [pop, cvWait, List.isEmpty_nil, if_true, Option.map_eq_none']
    rw [List.find?_eq_none]
    intro x hx
    simp [hall x hx]
  · intro v q2 h
    cases hq : q.isEmpty with
    | false =>
      simp only [pop, cvWait, hq, Bool.false_eq_true, if_false,
        Option.map_some', Option.some_inj] at h
      refine ⟨q, by simpa using hq, Or.inl rfl, ?_, ?_⟩
      · exact (congrArg Prod.fst h).symm
      · exact (congrArg Prod.snd h).symm
    | true =>
      simp only [pop, cvWait, hq, if_true, Option.map_eq_some'] at h
      obtain ⟨s, hfind, hpop⟩ := h
      have hmem := List.mem_of_find?_eq_some hfind
      have hpred := List.find?_some hfind
      refine ⟨s, by simpa using hpred, Or.inr hmem, ?_, ?_⟩
      · exact (congrArg Prod.fst hpop).symm
      · exact (congrArg Prod.snd hpop).symm

/-- witness for pop_blocks_until_nonempty -/
theorem pop_blocks_until_nonempty_witness :
    pop ([] : List Nat) [[], []] = none ∧
    ∃ s, s ≠ [] ∧ (s = ([3] : List Nat) ∨ s ∈ ([] : List (List Nat))) ∧
      3 = s.headI ∧ ([] : List Nat) = s.tail :=
  ⟨(pop_blocks_until_nonempty [] [[], []]).1 ⟨rfl, by decide⟩,
    (pop_blocks_until_nonempty [3] []).2 3 [] rfl⟩

/-- C9: on a non-empty queue the unbounded pop and the timed pop agree for
every duration: both return the front element and leave the tail, the timed
variant wrapping its result in `some`. -/
theorem pops_agree_on_nonempty (q : List T) (wakes wakes2 : List (List T))
    (qT : List T) (t : Int) (h : q.isEmpty = false) :
    pop q wakes = some (q.headI, q.tail) ∧
    timedPop t q wakes2 qT = (some q.headI, q.tail) := by
  constructor
  · simp [pop, cvWait, popCore, h]
  · simp [timedPop, waitFor, popCore, h]

/-- witness for pops_agree_on_nonempty -/
theorem pops_agree_on_nonempty_witness :
    pop ([2, 9] : List Nat) [[]] = some (2, [9]) ∧
    timedPop 42 ([2, 9] : List Nat) [] [] = (some 2, [9]) :=
  pops_agree_on_nonempty [2, 9] [[]] [] [] 42 rfl

/-- C10: frame property — `push` only appends at the back (length grows by
one, every existing position is unchanged, the new element sits at the old
length), and a successful pop only removes the front (length shrinks by one
and every remaining element is the old element one position further back). -/
theorem push_pop_frame (q : List T) (x : T) :
    ((push q x).length = q.length + 1 ∧
      (∀ i, i < q.length → (push q x)[i]? = q[i]?) ∧
      (push q x)[q.length]? = some x) ∧
    (q.isEmpty = false →
      (popCore q).2.length + 1 = q.length ∧
      ∀ i : Nat, (popCore q).2[i]? = q[i + 1]?) := by
  constructor
  · refine ⟨by simp [push], fun i hi => ?_, ?_⟩
    · rw [push, List.getElem?_append_left hi]
    · rw [push, List.getElem?_concat_length]
  · intro hq
    cases q with
    | nil => simp at hq
    | cons y ys => exact ⟨by simp [popCore], fun i => by simp [popCore]⟩

/-- witness for push_pop_frame -/
theorem push_pop_frame_witness :
    (push ([1, 2] : List Nat) 5)[1]? = ([1, 2] : List Nat)[1]? ∧
    (popCore ([1, 2] : List Nat)).2[0]? = ([1, 2] : List Nat)[0 + 1]? :=
  ⟨(push_pop_frame [1, 2] 5).1.2.1 1 (by norm_num),
    ((push_pop_frame [1, 2] 5).2 rfl).2 0⟩

end pt
